import Mathlib

/-!
Verification of the halo2 Fibonacci-XOR tutorial circuit
(`src/halo2-tutorial1/src/example3.rs`).

The development shallowly embeds the Rust source:

* the reference oracle `get_sequence` (lines 293-302) over `Nat`, with u64
  addition modelled as wrapping addition modulo `2 ^ 64` and out-of-bounds
  vector indexing modelled by `Option` (a Rust panic becomes `none`);
* the chip operations `load_private`, `add`, `xor`, `load_table`
  (lines 97-230) and the circuit's `configure`/`synthesize`/
  `without_witnesses` (lines 241-291) as explicit state passing over a
  synthesis trace: every `assign_region` call appends one `RegionRec`
  recording the region's name, the selectors enabled in it, the advice
  cells assigned in it and the copy (equality) constraints it adds, and
  `assign_table` appends to a table-cell log.  Field elements live in the
  BN256 scalar field `Fp = ZMod P`.  An `AssignedCell` becomes a `Number`:
  a cell coordinate plus an optional ("known or unknown") value.
  Fallible operations return `Except PlonkError`; the model's region
  allocator itself is total, so the only error source is an unknown value
  reaching a `.ok_or(Error::Synthesis)` site, exactly as in the source.
-/

set_option maxRecDepth 4000

namespace FiboHalo2

/-! ## The BN256 scalar field -/

/-- order of the BN256 (BN254) scalar field `Fr`, the field `Fp` the circuit
is instantiated with in `main`. -/
def P : Nat := 21888242871839275222246405745257275088548364400416034343698204186575808495617

/-- field elements of the circuit. -/
abbrev Fp := ZMod P

/-- `x.get_lower_128() as u64` (example3.rs lines 180-181): the lower 128
bits of the field element's integer representative, truncated to u64. -/
def lowerU64 (x : Fp) : Nat := (x.val % 2 ^ 128) % 2 ^ 64

/-- the value computed by `FiboChip::xor` for known operands
(example3.rs lines 179-183): `F::from(a_val ^ b_val)`. -/
def xorVal (x y : Fp) : Fp := ((lowerU64 x ^^^ lowerU64 y : Nat) : Fp)

/-! ## The reference oracle `get_sequence` (example3.rs lines 293-302) -/

/-- one checked vector write: Rust `seq[i] = v` stores in place, and panics
when `i` is out of bounds (modelled as `none`). -/
def setChecked (seq : List Nat) (i : Nat) (v : Nat) : Option (List Nat) :=
  if i < seq.length then some (seq.set i v) else none

/-- the `for i in 3..num` loop of `get_sequence`, running on the remaining
fuel `num - i`; reads are checked like writes, and the u64 addition
`seq[i - 3] + (seq[i - 2] ^ seq[i - 1])` wraps modulo `2 ^ 64`. -/
def seqLoop : Nat → Nat → List Nat → Option (List Nat)
  | 0, _, seq => some seq
  | fuel + 1, i, seq =>
    match seq[i - 3]?, seq[i - 2]?, seq[i - 1]? with
    | some x, some y, some z =>
      match setChecked seq i ((x + (y ^^^ z)) % 2 ^ 64) with
      | some seq2 => seqLoop fuel (i + 1) seq2
      | none => none
    | _, _, _ => none

/-- `get_sequence(a, b, c, num)` (example3.rs lines 293-302): build
`vec![0; num]`, write the three seeds at indices 0, 1, 2, then run the
recurrence loop from index 3. -/
def get_sequence (a b c : Nat) (num : Nat) : Option (List Nat) :=
  let seq := List.replicate num 0
  match setChecked seq 0 a with
  | none => none
  | some seq1 =>
    match setChecked seq1 1 b with
    | none => none
    | some seq2 =>
      match setChecked seq2 2 c with
      | none => none
      | some seq3 => seqLoop (num - 3) 3 seq3

/-! ## Constraint-system and configure (example3.rs lines 53-95, 249-257) -/

/-- the configuration produced by `FiboChip::configure`
(example3.rs lines 17-23): three advice columns, the two selectors and the
three lookup-table columns, all identified by their allocation index. -/
structure FiboConfig where
  advice : Nat × Nat × Nat
  s_add : Nat
  s_xor : Nat
  xor_table : Nat × Nat × Nat
deriving DecidableEq

/-- the part of halo2's `ConstraintSystem` that the tutorial touches:
allocation counters for advice columns, lookup-table columns and
selectors, the list of selectors created as complex, the advice columns
with equality enabled, and the registered lookup arguments and gates
(name, selector queried, advice columns queried, and for lookups the
table columns matched). -/
structure ConstraintSystem where
  num_advice_columns : Nat
  num_lookup_columns : Nat
  num_selectors : Nat
  complex_selectors : List Nat
  equality_columns : List Nat
  lookups : List (String × Nat × (Nat × Nat × Nat) × (Nat × Nat × Nat))
  gates : List (String × Nat × (Nat × Nat × Nat))
deriving DecidableEq

/-- `meta.advice_column()`: returns the next advice column index. -/
def ConstraintSystem.advice_column (m : ConstraintSystem) : Nat × ConstraintSystem :=
  (m.num_advice_columns, { m with num_advice_columns := m.num_advice_columns + 1 })

/-- `meta.lookup_table_column()`: returns the next table column index. -/
def ConstraintSystem.lookup_table_column (m : ConstraintSystem) : Nat × ConstraintSystem :=
  (m.num_lookup_columns, { m with num_lookup_columns := m.num_lookup_columns + 1 })

/-- `meta.selector()`: returns the next selector index. -/
def ConstraintSystem.selector (m : ConstraintSystem) : Nat × ConstraintSystem :=
  (m.num_selectors, { m with num_selectors := m.num_selectors + 1 })

/-- `meta.complex_selector()`: like `selector` but recorded as usable in
lookup arguments. -/
def ConstraintSystem.complex_selector (m : ConstraintSystem) : Nat × ConstraintSystem :=
  (m.num_selectors,
   { m with
     num_selectors := m.num_selectors + 1
     complex_selectors := m.complex_selectors ++ [m.num_selectors] })

/-- `meta.enable_equality(col)`. -/
def ConstraintSystem.enable_equality (m : ConstraintSystem) (col : Nat) : ConstraintSystem :=
  { m with equality_columns := m.equality_columns ++ [col] }

/-- `meta.lookup(name, ...)` (example3.rs lines 72-82): registers the
lookup whose input expressions are `s_xor * advice[i]` matched against the
three table columns. -/
def ConstraintSystem.lookup (m : ConstraintSystem) (name : String) (sel : Nat)
    (adv : Nat × Nat × Nat) (tab : Nat × Nat × Nat) : ConstraintSystem :=
  { m with lookups := m.lookups ++ [(name, sel, adv, tab)] }

/-- `meta.create_gate(name, ...)` (example3.rs lines 84-90): registers the
add gate `s_add * (lhs + rhs - out)` over the three advice columns. -/
def ConstraintSystem.create_gate (m : ConstraintSystem) (name : String) (sel : Nat)
    (adv : Nat × Nat × Nat) : ConstraintSystem :=
  { m with gates := m.gates ++ [(name, sel, adv)] }

/-- a fresh (empty) constraint-system builder. -/
def emptyCS : ConstraintSystem := ⟨0, 0, 0, [], [], [], []⟩

/-- `FiboChip::configure` (example3.rs lines 53-95): allocate the three
lookup-table columns, enable equality on the three advice columns,
register the "xor" lookup and the "add" gate, and bundle the layout. -/
def FiboChip.configure (m : ConstraintSystem) (advice : Nat × Nat × Nat)
    (selector : Nat × Nat) : FiboConfig × ConstraintSystem :=
  let s_add := selector.1
  let s_xor := selector.2
  let (t0, m1) := m.lookup_table_column
  let (t1, m2) := m1.lookup_table_column
  let (t2, m3) := m2.lookup_table_column
  let m4 := m3.enable_equality advice.1
  let m5 := m4.enable_equality advice.2.1
  let m6 := m5.enable_equality advice.2.2
  let m7 := m6.lookup "xor" s_xor advice (t0, t1, t2)
  let m8 := m7.create_gate "add" s_add advice
  (⟨advice, s_add, s_xor, (t0, t1, t2)⟩, m8)

/-- `FiboCircuit::configure` (example3.rs lines 249-257): allocate three
advice columns, a simple selector and a complex selector, then delegate to
`FiboChip::configure`. -/
def FiboCircuit.configure (m : ConstraintSystem) : FiboConfig × ConstraintSystem :=
  let (a0, m1) := m.advice_column
  let (a1, m2) := m1.advice_column
  let (a2, m3) := m2.advice_column
  let (s0, m4) := m3.selector
  let (s1, m5) := m4.complex_selector
  FiboChip.configure m5 (a0, a1, a2) (s0, s1)

/-- the layout the circuit actually runs with: `FiboCircuit::configure`
applied to a fresh constraint system. -/
def cfg0 : FiboConfig := (FiboCircuit.configure emptyCS).1

/-! ## Synthesis state (regions, table, assigned cells) -/

/-- coordinate of an assigned cell: region index (in order of
`assign_region` calls), column, and row offset inside the region. -/
structure Cell where
  region : Nat
  col : Nat
  row : Nat
deriving DecidableEq

/-- the trace of one `assign_region` call: region name, `(selector, row)`
pairs enabled, `(column, row, value)` advice assignments made, and the
copy constraints `(source cell, destination cell)` added by
`copy_advice`. -/
structure RegionRec where
  name : String
  enabled : List (Nat × Nat)
  assigned : List (Nat × Nat × Option Fp)
  copies : List (Cell × Cell)
deriving DecidableEq

/-- the layouter state accumulated during synthesis: the region trace, the
lookup-table cell assignments `(table column, row, value)`, and an event
log recording the order of the chip operations. -/
structure SynState where
  regions : List RegionRec
  table : List (Nat × Nat × Fp)
  events : List String
deriving DecidableEq

/-- the empty layouter state at the start of synthesis. -/
def initState : SynState := ⟨[], [], []⟩

/-- `Number<F>` (example3.rs line 15): an `AssignedCell` handle — the cell
coordinate plus its value, which is `none` when the value is unknown. -/
structure Number where
  cell : Cell
  val : Option Fp
deriving DecidableEq

/-- `plonk::Error` as used by the tutorial: only `Error::Synthesis` is
ever produced (example3.rs lines 158, 190). -/
inductive PlonkError where
  | Synthesis
deriving DecidableEq

/-- `FiboChip::load_private` (example3.rs lines 97-134): one region named
"private" assigning the three seeds into the three advice columns at row
0, with no selector and no copy constraint; the closures are `Ok(_)` so
the call cannot fail. -/
def FiboChip.load_private (cfg : FiboConfig) (s : SynState) (a b c : Fp) :
    SynState × (Number × Number × Number) :=
  let ridx := s.regions.length
  let region : RegionRec :=
    { name := "private"
      enabled := []
      assigned := [(cfg.advice.1, 0, some a), (cfg.advice.2.1, 0, some b),
                   (cfg.advice.2.2, 0, some c)]
      copies := [] }
  ({ s with
     regions := s.regions ++ [region]
     events := s.events ++ ["load_private"] },
   (⟨⟨ridx, cfg.advice.1, 0⟩, some a⟩,
    ⟨⟨ridx, cfg.advice.2.1, 0⟩, some b⟩,
    ⟨⟨ridx, cfg.advice.2.2, 0⟩, some c⟩))

/-- `FiboChip::add` (example3.rs lines 136-162): enable `s_add` at row 0
of a fresh region, `copy_advice` the inputs into advice columns 0 and 1
(recording a copy constraint from each input's cell), compute
`value = a + b` in the field and assign it to advice column 2; an unknown
input value makes the affected assignment's closure return
`Err(Error::Synthesis)`. -/
def FiboChip.add (cfg : FiboConfig) (s : SynState) (a b : Number) :
    Except PlonkError (SynState × Number) :=
  let ridx := s.regions.length
  match a.val with
  | none => .error .Synthesis
  | some av =>
    match b.val with
    | none => .error .Synthesis
    | some bv =>
      let value := av + bv
      let region : RegionRec :=
        { name := "add"
          enabled := [(cfg.s_add, 0)]
          assigned := [(cfg.advice.1, 0, some av), (cfg.advice.2.1, 0, some bv),
                       (cfg.advice.2.2, 0, some value)]
          copies := [(a.cell, ⟨ridx, cfg.advice.1, 0⟩),
                     (b.cell, ⟨ridx, cfg.advice.2.1, 0⟩)] }
      .ok ({ s with
             regions := s.regions ++ [region]
             events := s.events ++ ["add"] },
           ⟨⟨ridx, cfg.advice.2.2, 0⟩, some value⟩)

/-- `FiboChip::xor` (example3.rs lines 164-194): enable `s_xor` at row 0
of a fresh region, `copy_advice` the inputs into advice columns 0 and 1,
compute `F::from(a.get_lower_128() as u64 ^ b.get_lower_128() as u64)`
and assign it to advice column 2; unknown inputs fail as in `add`. -/
def FiboChip.xor (cfg : FiboConfig) (s : SynState) (a b : Number) :
    Except PlonkError (SynState × Number) :=
  let ridx := s.regions.length
  match a.val with
  | none => .error .Synthesis
  | some av =>
    match b.val with
    | none => .error .Synthesis
    | some bv =>
      let value := xorVal av bv
      let region : RegionRec :=
        { name := "xor"
          enabled := [(cfg.s_xor, 0)]
          assigned := [(cfg.advice.1, 0, some av), (cfg.advice.2.1, 0, some bv),
                       (cfg.advice.2.2, 0, some value)]
          copies := [(a.cell, ⟨ridx, cfg.advice.1, 0⟩),
                     (b.cell, ⟨ridx, cfg.advice.2.1, 0⟩)] }
      .ok ({ s with
             regions := s.regions ++ [region]
             events := s.events ++ ["xor"] },
           ⟨⟨ridx, cfg.advice.2.2, 0⟩, some value⟩)

/-- inner `for rhs in 0..32` loop of `load_table` (example3.rs lines
205-225): for each `rhs`, assign `(lhs, rhs, lhs ^ rhs)` into the three
table columns at row `idx`, then increment `idx`; returns the cells
assigned and the final `idx`. -/
def xorTableInner (cfg : FiboConfig) (lhs : Nat) (idx : Nat) :
    List Nat → List (Nat × Nat × Fp) × Nat
  | [] => ([], idx)
  | rhs :: rest =>
    let cells := [(cfg.xor_table.1, idx, (lhs : Fp)),
                  (cfg.xor_table.2.1, idx, (rhs : Fp)),
                  (cfg.xor_table.2.2, idx, ((lhs ^^^ rhs : Nat) : Fp))]
    let (restCells, idx1) := xorTableInner cfg lhs (idx + 1) rest
    (cells ++ restCells, idx1)

/-- outer `for lhs in 0..32` loop of `load_table` (example3.rs lines
204-226). -/
def xorTableOuter (cfg : FiboConfig) (idx : Nat) :
    List Nat → List (Nat × Nat × Fp) × Nat
  | [] => ([], idx)
  | lhs :: rest =>
    let (cells, idx1) := xorTableInner cfg lhs idx (List.range 32)
    let (restCells, idx2) := xorTableOuter cfg idx1 rest
    (cells ++ restCells, idx2)

/-- the full list of table-cell assignments made by `load_table`. -/
def xorTableCells (cfg : FiboConfig) : List (Nat × Nat × Fp) :=
  (xorTableOuter cfg 0 (List.range 32)).1

/-- `FiboChip::load_table` (example3.rs lines 196-230): one
`assign_table` call populating the three lookup-table columns with the
1024 `(lhs, rhs, lhs ^ rhs)` triples; the closures are `Ok(_)` so the
call cannot fail. -/
def FiboChip.load_table (cfg : FiboConfig) (s : SynState) : SynState :=
  { s with
    table := s.table ++ xorTableCells cfg
    events := s.events ++ ["load_table"] }

/-! ## The circuit (example3.rs lines 233-291) -/

/-- `FiboCircuit<F>` (example3.rs lines 233-239): the three seed values
and the requested sequence length. -/
structure FiboCircuit where
  a : Fp
  b : Fp
  c : Fp
  num : Nat
deriving DecidableEq

/-- `FiboCircuit::default()` from `#[derive(Default)]`: zero seeds and
`num = 0`. -/
def defaultCircuit : FiboCircuit := ⟨0, 0, 0, 0⟩

/-- `FiboCircuit::without_witnesses` (example3.rs lines 245-247): returns
`Self::default()`, discarding the receiver. -/
def FiboCircuit.without_witnesses (_ : FiboCircuit) : FiboCircuit := defaultCircuit

/-- the `for _ in 3..self.num` loop of `FiboCircuit::synthesize`
(example3.rs lines 274-288), running on fuel `num - 3`: each iteration
computes `xor(b, c)` then `add(a, xor)` and rolls the window
`a, b, c := b, c, new_c`. -/
def synLoop (cfg : FiboConfig) :
    Nat → Number → Number → Number → SynState →
    Except PlonkError (SynState × Number × Number × Number)
  | 0, a, b, c, s => .ok (s, a, b, c)
  | fuel + 1, a, b, c, s =>
    match FiboChip.xor cfg s b c with
    | .error e => .error e
    | .ok (s1, x) =>
      match FiboChip.add cfg s1 a x with
      | .error e => .error e
      | .ok (s2, new_c) => synLoop cfg fuel b c new_c s2

/-- `FiboCircuit::synthesize` (example3.rs lines 259-290): load the
lookup table, load the three seeds, then run the xor/add loop. -/
def FiboCircuit.synthesize (circ : FiboCircuit) (cfg : FiboConfig) (s : SynState) :
    Except PlonkError SynState :=
  let s1 := FiboChip.load_table cfg s
  let (s2, abc) := FiboChip.load_private cfg s1 circ.a circ.b circ.c
  match synLoop cfg (circ.num - 3) abc.1 abc.2.1 abc.2.2 s2 with
  | .error e => .error e
  | .ok (s3, _, _, _) => .ok s3

/-! ## Expected-shape descriptions used to state the claims -/

/-- the field-valued sequence the circuit computes: the rolling triple
`(a, b, c)` after `k` loop iterations. -/
def fieldTriple (a b c : Fp) : Nat → Fp × Fp × Fp
  | 0 => (a, b, c)
  | k + 1 =>
    let t := fieldTriple a b c k
    (t.2.1, t.2.2, t.1 + xorVal t.2.1 t.2.2)

/-- term `j` of the field-valued sequence: seeds for `j < 3`, then
`fieldSeq (j) = fieldSeq (j-3) + xorVal (fieldSeq (j-2)) (fieldSeq (j-1))`. -/
def fieldSeq (a b c : Fp) (j : Nat) : Fp := (fieldTriple a b c j).1

/-- the cell holding term `j` of the sequence during synthesis: the seed
row's three cells for `j < 3`, and the add output of loop iteration
`j - 3` (region `2 + 2*(j-3)`, advice column 2, row 0) afterwards. -/
def termCell (cfg : FiboConfig) (j : Nat) : Cell :=
  if j = 0 then ⟨0, cfg.advice.1, 0⟩
  else if j = 1 then ⟨0, cfg.advice.2.1, 0⟩
  else if j = 2 then ⟨0, cfg.advice.2.2, 0⟩
  else ⟨2 + 2 * (j - 3), cfg.advice.2.2, 0⟩

/-- the seed region produced by `load_private`. -/
def privRegion (cfg : FiboConfig) (a b c : Fp) : RegionRec :=
  { name := "private"
    enabled := []
    assigned := [(cfg.advice.1, 0, some a), (cfg.advice.2.1, 0, some b),
                 (cfg.advice.2.2, 0, some c)]
    copies := [] }

/-- the xor region produced by loop iteration `k` (0-based): region
`1 + 2*k`, combining terms `k+1` and `k+2` of the sequence, whose cells
are copy-constrained in. -/
def expectedXor (cfg : FiboConfig) (a b c : Fp) (k : Nat) : RegionRec :=
  { name := "xor"
    enabled := [(cfg.s_xor, 0)]
    assigned := [(cfg.advice.1, 0, some (fieldSeq a b c (k + 1))),
                 (cfg.advice.2.1, 0, some (fieldSeq a b c (k + 2))),
                 (cfg.advice.2.2, 0,
                  some (xorVal (fieldSeq a b c (k + 1)) (fieldSeq a b c (k + 2))))]
    copies := [(termCell cfg (k + 1), ⟨1 + 2 * k, cfg.advice.1, 0⟩),
               (termCell cfg (k + 2), ⟨1 + 2 * k, cfg.advice.2.1, 0⟩)] }

/-- the add region produced by loop iteration `k` (0-based): region
`2 + 2*k`, combining term `k` (copy-constrained in) with the xor output
of region `1 + 2*k` (copy-constrained in), and assigning term `k+3`. -/
def expectedAdd (cfg : FiboConfig) (a b c : Fp) (k : Nat) : RegionRec :=
  { name := "add"
    enabled := [(cfg.s_add, 0)]
    assigned := [(cfg.advice.1, 0, some (fieldSeq a b c k)),
                 (cfg.advice.2.1, 0,
                  some (xorVal (fieldSeq a b c (k + 1)) (fieldSeq a b c (k + 2)))),
                 (cfg.advice.2.2, 0,
                  some (fieldSeq a b c k +
                        xorVal (fieldSeq a b c (k + 1)) (fieldSeq a b c (k + 2))))]
    copies := [(termCell cfg k, ⟨2 + 2 * k, cfg.advice.1, 0⟩),
               (⟨1 + 2 * k, cfg.advice.2.2, 0⟩, ⟨2 + 2 * k, cfg.advice.2.1, 0⟩)] }

/-- the two regions produced by loop iteration `k` (0-based): the xor of
terms `k+1` and `k+2`, then the add with term `k` — the rolled window
`(prev3, prev2, prev1) = (term k, term (k+1), term (k+2))`. -/
def expectedIter (cfg : FiboConfig) (a b c : Fp) (k : Nat) : List RegionRec :=
  [expectedXor cfg a b c k, expectedAdd cfg a b c k]

/-- the per-step committed outputs of a synthesis trace: the three seed
values of the "private" region, then for each "add" region the value it
assigned to the output column (its third assignment). -/
def stepValues (s : SynState) : List (Option Fp) :=
  s.regions.flatMap fun r =>
    if r.name = "private" then r.assigned.map (fun e => e.2.2)
    else if r.name = "add" then [(r.assigned.getD 2 (0, 0, none)).2.2]
    else []

end FiboHalo2

/-! ## Helper lemmas -/

namespace FiboHalo2

/-- getD of a set at a different index. -/
lemma getD_set_ne (seq : List Nat) (i j v : Nat) (h : i ≠ j) :
    (seq.set i v).getD j 0 = seq.getD j 0 := by
  simp [List.getD_eq_getElem?_getD, List.getElem?_set_ne h]

/-- getD of a set at the written index. -/
lemma getD_set_self (seq : List Nat) (i v : Nat) (h : i < seq.length) :
    (seq.set i v).getD i 0 = v := by
  simp [List.getD_eq_getElem?_getD, List.getElem?_set_self h]

/-- loop invariant for `seqLoop`: starting at index `i ≥ 3` with exactly
`fuel = length - i` steps left, the loop succeeds, preserves the entries
below `i`, and establishes the wrapping recurrence on `[i, i+fuel)`. -/
lemma seqLoop_spec : ∀ (fuel i : Nat) (seq : List Nat), 3 ≤ i → i + fuel = seq.length →
    ∃ out : List Nat, seqLoop fuel i seq = some out ∧ out.length = seq.length ∧
      (∀ j, j < i → out.getD j 0 = seq.getD j 0) ∧
      (∀ j, i ≤ j → j < i + fuel →
        out.getD j 0 =
          (out.getD (j - 3) 0 + (out.getD (j - 2) 0 ^^^ out.getD (j - 1) 0)) % 2 ^ 64) := by
  intro fuel
  induction fuel with
  | zero =>
    intro i seq h3 _
    exact ⟨seq, rfl, rfl, fun _ _ => rfl, fun j hij hj => absurd hj (by omega)⟩
  | succ fuel ih =>
    intro i seq h3 hlen
    have hi : i < seq.length := by omega
    have h3lt : i - 3 < seq.length := by omega
    have h2lt : i - 2 < seq.length := by omega
    have h1lt : i - 1 < seq.length := by omega
    have e3 : seq[i - 3]? = some (seq.getD (i - 3) 0) := by
      rw [List.getElem?_eq_getElem h3lt, List.getD_eq_getElem _ _ h3lt]
    have e2 : seq[i - 2]? = some (seq.getD (i - 2) 0) := by
      rw [List.getElem?_eq_getElem h2lt, List.getD_eq_getElem _ _ h2lt]
    have e1 : seq[i - 1]? = some (seq.getD (i - 1) 0) := by
      rw [List.getElem?_eq_getElem h1lt, List.getD_eq_getElem _ _ h1lt]
    have hstep : seqLoop (fuel + 1) i seq =
        seqLoop fuel (i + 1)
          (seq.set i
            ((seq.getD (i - 3) 0 + (seq.getD (i - 2) 0 ^^^ seq.getD (i - 1) 0)) % 2 ^ 64)) := by
      rw [seqLoop, e3, e2, e1]
      simp [setChecked, hi]
    set w := (seq.getD (i - 3) 0 + (seq.getD (i - 2) 0 ^^^ seq.getD (i - 1) 0)) % 2 ^ 64 with hw
    obtain ⟨out, hrun, hlen2, hpres, hrec⟩ :=
      ih (i + 1) (seq.set i w) (by omega) (by simp [List.length_set]; omega)
    refine ⟨out, by rw [hstep, hrun], by simpa [List.length_set] using hlen2, ?_, ?_⟩
    · intro j hj
      rw [hpres j (by omega), getD_set_ne seq i j w (by omega)]
    · intro j hij hj
      rcases Nat.eq_or_lt_of_le hij with heq | hlt
      · subst heq
        have hout : out.getD i 0 = w := by
          rw [hpres i (by omega), getD_set_self seq i w hi]
        have o3 : out.getD (i - 3) 0 = seq.getD (i - 3) 0 := by
          rw [hpres (i - 3) (by omega), getD_set_ne seq i (i - 3) w (by omega)]
        have o2 : out.getD (i - 2) 0 = seq.getD (i - 2) 0 := by
          rw [hpres (i - 2) (by omega), getD_set_ne seq i (i - 2) w (by omega)]
        have o1 : out.getD (i - 1) 0 = seq.getD (i - 1) 0 := by
          rw [hpres (i - 1) (by omega), getD_set_ne seq i (i - 1) w (by omega)]
        rw [hout, o3, o2, o1, hw]
      · exact hrec j (by omega) (by omega)

/-- full specification of `get_sequence` for `num ≥ 3`. -/
lemma get_sequence_spec (a b c num : Nat) (h : 3 ≤ num) :
    ∃ seq : List Nat, get_sequence a b c num = some seq ∧ seq.length = num ∧
      seq.getD 0 0 = a ∧ seq.getD 1 0 = b ∧ seq.getD 2 0 = c ∧
      (∀ i, 3 ≤ i → i < num →
        seq.getD i 0 =
          (seq.getD (i - 3) 0 + (seq.getD (i - 2) 0 ^^^ seq.getD (i - 1) 0)) % 2 ^ 64) := by
  have h0 : (0 : Nat) < num := by omega
  have h1 : (1 : Nat) < num := by omega
  have h2 : (2 : Nat) < num := by omega
  set s3 := (((List.replicate num 0).set 0 a).set 1 b).set 2 c with hs3
  have hlen3 : s3.length = num := by simp [hs3]
  have hrun : get_sequence a b c num = seqLoop (num - 3) 3 s3 := by
    simp [get_sequence, setChecked, hs3, h0, h1, h2]
  obtain ⟨out, hloop, hlen, hpres, hrec⟩ :=
    seqLoop_spec (num - 3) 3 s3 (by omega) (by omega)
  refine ⟨out, by rw [hrun, hloop], by omega, ?_, ?_, ?_, ?_⟩
  · rw [hpres 0 (by omega), hs3, getD_set_ne _ 2 0 c (by omega), getD_set_ne _ 1 0 b (by omega),
      getD_set_self _ 0 a (by simp [List.length_replicate]; omega)]
  · rw [hpres 1 (by omega), hs3, getD_set_ne _ 2 1 c (by omega),
      getD_set_self _ 1 b (by simp [List.length_set, List.length_replicate]; omega)]
  · rw [hpres 2 (by omega), hs3,
      getD_set_self _ 2 c (by simp [List.length_set, List.length_replicate]; omega)]
  · intro i hi hilt
    exact hrec i hi (by omega)

/-- for `num < 3` the seed writes index out of bounds: the model returns
`none` (the Rust code panics). -/
lemma get_sequence_short (a b c num : Nat) (h : num < 3) :
    get_sequence a b c num = none := by
  have : num = 0 ∨ num = 1 ∨ num = 2 := by omega
  rcases this with h0 | h1 | h2
  · subst h0; simp [get_sequence, setChecked]
  · subst h1; simp [get_sequence, setChecked]
  · subst h2; simp [get_sequence, setChecked]

/-- the first three terms of the field-valued sequence are the seeds. -/
lemma fieldSeq_zero (a b c : Fp) : fieldSeq a b c 0 = a := rfl

/-- second seed. -/
lemma fieldSeq_one (a b c : Fp) : fieldSeq a b c 1 = b := rfl

/-- third seed. -/
lemma fieldSeq_two (a b c : Fp) : fieldSeq a b c 2 = c := rfl

/-- the field-valued sequence satisfies the add-xor recurrence. -/
lemma fieldSeq_rec (a b c : Fp) (k : Nat) :
    fieldSeq a b c (k + 3) =
      fieldSeq a b c k + xorVal (fieldSeq a b c (k + 1)) (fieldSeq a b c (k + 2)) := rfl

/-- the cell of term `k + 3` is the add output of iteration `k`. -/
lemma termCell_add3 (cfg : FiboConfig) (k : Nat) :
    termCell cfg (k + 3) = ⟨2 + 2 * k, cfg.advice.2.2, 0⟩ := by
  simp [termCell]

end FiboHalo2

/-! ## Claim theorems -/

namespace FiboHalo2

/-- C1: for all seeds `a, b, c` and every length `n ≥ 3`, the reference
oracle `get_sequence a b c n` returns a sequence of length `n` whose
first three terms are `(a, b, c)` and in which every term at index
`3 ≤ i < n` equals `seq[i-3] + (seq[i-2] XOR seq[i-1])`, the addition
being the source's u64 addition (wrapping modulo `2 ^ 64`). -/
theorem claim_C1 (a b c n : Nat) (hn : 3 ≤ n) :
    ∃ seq : List Nat, get_sequence a b c n = some seq ∧ seq.length = n ∧
      seq.getD 0 0 = a ∧ seq.getD 1 0 = b ∧ seq.getD 2 0 = c ∧
      ∀ i, 3 ≤ i → i < n →
        seq.getD i 0 =
          (seq.getD (i - 3) 0 + (seq.getD (i - 2) 0 ^^^ seq.getD (i - 1) 0)) % 2 ^ 64 :=
  get_sequence_spec a b c n hn

/-- witness for C1 at seeds `(1, 3, 2)` and length 14. -/
theorem claim_C1_witness :
    3 ≤ 14 ∧
    ∃ seq : List Nat, get_sequence 1 3 2 14 = some seq ∧ seq.length = 14 ∧
      seq.getD 0 0 = 1 ∧ seq.getD 1 0 = 3 ∧ seq.getD 2 0 = 2 ∧
      ∀ i, 3 ≤ i → i < 14 →
        seq.getD i 0 =
          (seq.getD (i - 3) 0 + (seq.getD (i - 2) 0 ^^^ seq.getD (i - 1) 0)) % 2 ^ 64 :=
  ⟨by decide, claim_C1 1 3 2 14 (by decide)⟩

/-- C10: `get_sequence` writes indices 0, 1, 2 before its loop: for
`num ≥ 3` every index is in bounds and the result has length `num`, and
for `num < 3` the function hits an out-of-bounds write (a Rust panic,
`none` in the model) instead of returning. -/
theorem claim_C10 (a b c num : Nat) :
    (3 ≤ num → ∃ seq : List Nat, get_sequence a b c num = some seq ∧ seq.length = num) ∧
    (num < 3 → get_sequence a b c num = none) :=
  ⟨fun h => (get_sequence_spec a b c num h).imp (fun _ hs => ⟨hs.1, hs.2.1⟩),
   get_sequence_short a b c num⟩

/-- witness for C10: length 5 succeeds, length 2 panics. -/
theorem claim_C10_witness :
    (∃ seq : List Nat, get_sequence 7 8 9 5 = some seq ∧ seq.length = 5) ∧
    get_sequence 7 8 9 2 = none :=
  ⟨(claim_C10 7 8 9 5).1 (by decide), (claim_C10 7 8 9 2).2 (by decide)⟩

/-- C2, counterexample: the sequence claimed by the spec for seeds
`(1, 3, 2)` and length 14, namely `[1,3,2,2,1,3,0,3,3,0,3,3,0,3]`, is not
what the oracle returns, and the circuit does not assign those values
either (already `seq[4] = 3 + (2 XOR 2) = 3`, not 1). -/
theorem claim_C2_counterexample :
    ¬(get_sequence 1 3 2 14 = some [1, 3, 2, 2, 1, 3, 0, 3, 3, 0, 3, 3, 0, 3] ∧
      (FiboCircuit.synthesize ⟨1, 3, 2, 14⟩ cfg0 initState).toOption.map stepValues =
        some (([1, 3, 2, 2, 1, 3, 0, 3, 3, 0, 3, 3, 0, 3] : List Nat).map
          (fun v => some (v : Fp)))) := by
  intro h
  exact absurd h.1 (by decide)

/-- C2, amended: for seeds `(1, 3, 2)` and length 14 the oracle produces
exactly `[1, 3, 2, 2, 3, 3, 2, 4, 9, 15, 10, 14, 19, 39]`, and the
circuit's synthesis assigns these same values as the outputs of its
successive steps (the three seed cells followed by the eleven add
outputs). -/
theorem claim_C2 :
    get_sequence 1 3 2 14 = some [1, 3, 2, 2, 3, 3, 2, 4, 9, 15, 10, 14, 19, 39] ∧
    (FiboCircuit.synthesize ⟨1, 3, 2, 14⟩ cfg0 initState).toOption.map stepValues =
      some (([1, 3, 2, 2, 3, 3, 2, 4, 9, 15, 10, 14, 19, 39] : List Nat).map
        (fun v => some (v : Fp))) :=
  ⟨by decide, by decide⟩

/-- C5: for input handles with known values, `add` enables the add
selector on row 0 of a fresh region, copy-constrains that row's column-0
and column-1 cells to the supplied handles' cells (recorded as copy
constraints, not fresh assignments), computes `out = a + b` in the field,
assigns it to column 2, and returns that cell's handle. -/
theorem claim_C5 (cfg : FiboConfig) (s : SynState) (a b : Number) (va vb : Fp)
    (ha : a.val = some va) (hb : b.val = some vb) :
    FiboChip.add cfg s a b = .ok
      ({ s with
         regions := s.regions ++ [{
           name := "add"
           enabled := [(cfg.s_add, 0)]
           assigned := [(cfg.advice.1, 0, some va), (cfg.advice.2.1, 0, some vb),
                        (cfg.advice.2.2, 0, some (va + vb))]
           copies := [(a.cell, ⟨s.regions.length, cfg.advice.1, 0⟩),
                      (b.cell, ⟨s.regions.length, cfg.advice.2.1, 0⟩)] }]
         events := s.events ++ ["add"] },
       ⟨⟨s.regions.length, cfg.advice.2.2, 0⟩, some (va + vb)⟩) := by
  simp [FiboChip.add, ha, hb]

/-- witness for C5 at values 20 and 22. -/
theorem claim_C5_witness :
    FiboChip.add cfg0 initState ⟨⟨0, 0, 0⟩, some 20⟩ ⟨⟨0, 1, 0⟩, some 22⟩ = .ok
      ({ initState with
         regions := initState.regions ++ [{
           name := "add"
           enabled := [(cfg0.s_add, 0)]
           assigned := [(cfg0.advice.1, 0, some 20), (cfg0.advice.2.1, 0, some 22),
                        (cfg0.advice.2.2, 0, some (20 + 22))]
           copies := [((⟨0, 0, 0⟩ : Cell), ⟨initState.regions.length, cfg0.advice.1, 0⟩),
                      ((⟨0, 1, 0⟩ : Cell), ⟨initState.regions.length, cfg0.advice.2.1, 0⟩)] }]
         events := initState.events ++ ["add"] },
       ⟨⟨initState.regions.length, cfg0.advice.2.2, 0⟩, some (20 + 22)⟩) :=
  claim_C5 cfg0 initState ⟨⟨0, 0, 0⟩, some 20⟩ ⟨⟨0, 1, 0⟩, some 22⟩ 20 22 rfl rfl

/-- C4, amended: for input handles with known values, `xor` enables the
xor selector on row 0 of a fresh region, copy-constrains the first two
advice cells to the inputs, and assigns to the third advice cell the
field element equal to the XOR of the *low 64 bits* of the two values'
integer representatives (`get_lower_128() as u64`), returning that cell's
handle. -/
theorem claim_C4 (cfg : FiboConfig) (s : SynState) (a b : Number) (va vb : Fp)
    (ha : a.val = some va) (hb : b.val = some vb) :
    FiboChip.xor cfg s a b = .ok
      ({ s with
         regions := s.regions ++ [{
           name := "xor"
           enabled := [(cfg.s_xor, 0)]
           assigned := [(cfg.advice.1, 0, some va), (cfg.advice.2.1, 0, some vb),
                        (cfg.advice.2.2, 0, some (xorVal va vb))]
           copies := [(a.cell, ⟨s.regions.length, cfg.advice.1, 0⟩),
                      (b.cell, ⟨s.regions.length, cfg.advice.2.1, 0⟩)] }]
         events := s.events ++ ["xor"] },
       ⟨⟨s.regions.length, cfg.advice.2.2, 0⟩, some (xorVal va vb)⟩) := by
  simp [FiboChip.xor, ha, hb]

/-- witness for C4 at values 5 and 3 (output `5 XOR 3 = 6`). -/
theorem claim_C4_witness :
    FiboChip.xor cfg0 initState ⟨⟨0, 0, 0⟩, some 5⟩ ⟨⟨0, 1, 0⟩, some 3⟩ = .ok
      ({ initState with
         regions := initState.regions ++ [{
           name := "xor"
           enabled := [(cfg0.s_xor, 0)]
           assigned := [(cfg0.advice.1, 0, some 5), (cfg0.advice.2.1, 0, some 3),
                        (cfg0.advice.2.2, 0, some (xorVal 5 3))]
           copies := [((⟨0, 0, 0⟩ : Cell), ⟨initState.regions.length, cfg0.advice.1, 0⟩),
                      ((⟨0, 1, 0⟩ : Cell), ⟨initState.regions.length, cfg0.advice.2.1, 0⟩)] }]
         events := initState.events ++ ["xor"] },
       ⟨⟨initState.regions.length, cfg0.advice.2.2, 0⟩, some (xorVal 5 3)⟩) :=
  claim_C4 cfg0 initState ⟨⟨0, 0, 0⟩, some 5⟩ ⟨⟨0, 1, 0⟩, some 3⟩ 5 3 rfl rfl

/-- C4, counterexample: for the concrete known value `2 ^ 64` (as a field
element) XORed with 1, the code assigns 1 — the XOR of the low 64 bits —
whereas the claim's "value interpreted as an integer" reading would give
`2 ^ 64 XOR 1`, a different field element. -/
theorem claim_C4_counterexample :
    (FiboChip.xor cfg0 initState ⟨⟨0, 0, 0⟩, some ((2 ^ 64 : Nat) : Fp)⟩
        ⟨⟨0, 1, 0⟩, some 1⟩).toOption.map (fun r => r.2.val) = some (some (1 : Fp)) ∧
    ((2 ^ 64 ^^^ 1 : Nat) : Fp) ≠ (1 : Fp) := by
  constructor
  · decide
  · decide

/-- C7: `add` and `xor` return `Error::Synthesis` exactly when an input
handle's value is unavailable (the model's allocator is total, so no
other failure source exists); with both values known they succeed —
in particular for concrete values outside `[0, 32)`, the range violation
being deferred to proof time. -/
theorem claim_C7 (cfg : FiboConfig) (s : SynState) (a b : Number) :
    ((a.val = none ∨ b.val = none) →
      FiboChip.add cfg s a b = .error .Synthesis ∧
      FiboChip.xor cfg s a b = .error .Synthesis) ∧
    (∀ va vb : Fp, a.val = some va → b.val = some vb →
      (∃ r, FiboChip.add cfg s a b = .ok r) ∧ (∃ r, FiboChip.xor cfg s a b = .ok r)) := by
  constructor
  · intro h
    rcases ha : a.val with _ | av
    · constructor <;> simp [FiboChip.add, FiboChip.xor, ha]
    · have hb : b.val = none := by
        rcases h with h | h
        · rw [ha] at h; cases h
        · exact h
      constructor <;> simp [FiboChip.add, FiboChip.xor, ha, hb]
  · intro va vb ha hb
    constructor
    · rcases hr : FiboChip.add cfg s a b with e | r
      · exact absurd hr (by simp [FiboChip.add, ha, hb])
      · exact ⟨r, rfl⟩
    · rcases hr : FiboChip.xor cfg s a b with e | r
      · exact absurd hr (by simp [FiboChip.xor, ha, hb])
      · exact ⟨r, rfl⟩

/-- witness for C7: concrete values 100 and 200, both outside `[0, 32)`,
still synthesize successfully. -/
theorem claim_C7_witness :
    (∃ r, FiboChip.add cfg0 initState ⟨⟨0, 0, 0⟩, some 100⟩ ⟨⟨0, 1, 0⟩, some 200⟩ = .ok r) ∧
    (∃ r, FiboChip.xor cfg0 initState ⟨⟨0, 0, 0⟩, some 100⟩ ⟨⟨0, 1, 0⟩, some 200⟩ = .ok r) :=
  (claim_C7 cfg0 initState ⟨⟨0, 0, 0⟩, some 100⟩ ⟨⟨0, 1, 0⟩, some 200⟩).2 100 200 rfl rfl

/-- C8: configure is deterministic — run on equal fresh builders it
produces identical descriptors — and on a fresh builder it allocates
advice columns 0, 1, 2, selectors 0 (add) and 1 (xor, complex), table
columns 0, 1, 2, leaving counts 3 / 3 / 2, equality enabled on the three
advice columns. -/
theorem claim_C8 (m1 m2 : ConstraintSystem) (h : m1 = m2) :
    FiboCircuit.configure m1 = FiboCircuit.configure m2 ∧
    cfg0.advice = (0, 1, 2) ∧ cfg0.s_add = 0 ∧ cfg0.s_xor = 1 ∧ cfg0.xor_table = (0, 1, 2) ∧
    (FiboCircuit.configure emptyCS).2.num_advice_columns = 3 ∧
    (FiboCircuit.configure emptyCS).2.num_lookup_columns = 3 ∧
    (FiboCircuit.configure emptyCS).2.num_selectors = 2 ∧
    (FiboCircuit.configure emptyCS).2.complex_selectors = [1] ∧
    (FiboCircuit.configure emptyCS).2.equality_columns = [0, 1, 2] := by
  subst h
  exact ⟨rfl, by decide, by decide, by decide, by decide, by decide, by decide, by decide,
    by decide, by decide⟩

/-- witness for C8 at two copies of the fresh builder. -/
theorem claim_C8_witness :
    FiboCircuit.configure emptyCS = FiboCircuit.configure emptyCS ∧
    cfg0.advice = (0, 1, 2) ∧ cfg0.s_add = 0 ∧ cfg0.s_xor = 1 ∧ cfg0.xor_table = (0, 1, 2) ∧
    (FiboCircuit.configure emptyCS).2.num_advice_columns = 3 ∧
    (FiboCircuit.configure emptyCS).2.num_lookup_columns = 3 ∧
    (FiboCircuit.configure emptyCS).2.num_selectors = 2 ∧
    (FiboCircuit.configure emptyCS).2.complex_selectors = [1] ∧
    (FiboCircuit.configure emptyCS).2.equality_columns = [0, 1, 2] :=
  claim_C8 emptyCS emptyCS rfl

/-- C9: `without_witnesses` returns the `Default` circuit, whose `num` is
0; its synthesis therefore runs zero xor/add iterations — it only loads
the table and assigns the seed row with zero values — regardless of the
receiver's `num`. -/
theorem claim_C9 (circ : FiboCircuit) :
    FiboCircuit.without_witnesses circ = ⟨0, 0, 0, 0⟩ ∧
    (FiboCircuit.without_witnesses circ).num = 0 ∧
    FiboCircuit.synthesize (FiboCircuit.without_witnesses circ) cfg0 initState =
      .ok { regions := [privRegion cfg0 0 0 0],
            table := xorTableCells cfg0,
            events := ["load_table", "load_private"] } := by
  refine ⟨rfl, rfl, ?_⟩
  simp [FiboCircuit.without_witnesses, defaultCircuit, FiboCircuit.synthesize,
    FiboChip.load_table, FiboChip.load_private, synLoop, initState, privRegion]

end FiboHalo2

/-! ## The synthesis loop trace (claim C6) -/

namespace FiboHalo2

/-- invariant of the `for _ in 3..num` loop: starting after `k`
iterations with the rolling window holding terms `k`, `k+1`, `k+2` in
their cells, the remaining `fuel` iterations append exactly the xor/add
region pairs of iterations `k, ..., k+fuel-1` and roll the window to
terms `k+fuel`, `k+fuel+1`, `k+fuel+2`. -/
lemma synLoop_expected (cfg : FiboConfig) (a0 b0 c0 : Fp) :
    ∀ (fuel k : Nat) (s : SynState), s.regions.length = 1 + 2 * k →
    synLoop cfg fuel
      ⟨termCell cfg k, some (fieldSeq a0 b0 c0 k)⟩
      ⟨termCell cfg (k + 1), some (fieldSeq a0 b0 c0 (k + 1))⟩
      ⟨termCell cfg (k + 2), some (fieldSeq a0 b0 c0 (k + 2))⟩ s =
    .ok ({ s with
           regions := s.regions ++ (List.range' k fuel).flatMap (expectedIter cfg a0 b0 c0)
           events := s.events ++ (List.replicate fuel (["xor", "add"] : List String)).flatten },
         ⟨termCell cfg (k + fuel), some (fieldSeq a0 b0 c0 (k + fuel))⟩,
         ⟨termCell cfg (k + fuel + 1), some (fieldSeq a0 b0 c0 (k + fuel + 1))⟩,
         ⟨termCell cfg (k + fuel + 2), some (fieldSeq a0 b0 c0 (k + fuel + 2))⟩) := by
  intro fuel
  induction fuel with
  | zero =>
    intro k s hlen
    simp [synLoop]
  | succ fuel ih =>
    intro k s hlen
    have hx : FiboChip.xor cfg s
        ⟨termCell cfg (k + 1), some (fieldSeq a0 b0 c0 (k + 1))⟩
        ⟨termCell cfg (k + 2), some (fieldSeq a0 b0 c0 (k + 2))⟩ = .ok
        ({ s with regions := s.regions ++ [expectedXor cfg a0 b0 c0 k]
                  events := s.events ++ ["xor"] },
         ⟨⟨1 + 2 * k, cfg.advice.2.2, 0⟩,
          some (xorVal (fieldSeq a0 b0 c0 (k + 1)) (fieldSeq a0 b0 c0 (k + 2)))⟩) := by
      simp [FiboChip.xor, expectedXor, hlen]
    have ha : FiboChip.add cfg
        ({ s with regions := s.regions ++ [expectedXor cfg a0 b0 c0 k]
                  events := s.events ++ ["xor"] } : SynState)
        ⟨termCell cfg k, some (fieldSeq a0 b0 c0 k)⟩
        ⟨⟨1 + 2 * k, cfg.advice.2.2, 0⟩,
         some (xorVal (fieldSeq a0 b0 c0 (k + 1)) (fieldSeq a0 b0 c0 (k + 2)))⟩ = .ok
        ({ s with regions := s.regions ++ [expectedXor cfg a0 b0 c0 k] ++
                             [expectedAdd cfg a0 b0 c0 k]
                  events := s.events ++ ["xor"] ++ ["add"] },
         ⟨⟨2 + 2 * k, cfg.advice.2.2, 0⟩,
          some (fieldSeq a0 b0 c0 k +
                xorVal (fieldSeq a0 b0 c0 (k + 1)) (fieldSeq a0 b0 c0 (k + 2)))⟩) := by
      simp only [FiboChip.add, expectedAdd, List.length_append, List.length_cons,
        List.length_nil, hlen]
      simp
      omega
    rw [synLoop, hx]
    simp only []
    rw [ha]
    simp only []
    rw [← termCell_add3 cfg k, ← fieldSeq_rec a0 b0 c0 k]
    have harith1 : k + 1 + fuel = k + (fuel + 1) := by omega
    refine (ih (k + 1) _ ?_).trans ?_
    · simp only [List.length_append, List.length_cons, List.length_nil, hlen]
      omega
    · rw [harith1]
      simp [List.range'_succ, expectedIter, List.append_assoc, List.replicate_succ]


/-- C6: for every requested length `num ≥ 3`, synthesis first loads the
table, then the three seeds, then performs exactly `num - 3` iterations,
each producing an xor region on `(prev2, prev1)` followed by an add
region on `(prev3, xor result)` with the window rolled forward; the
event log and the full region trace are exactly the expected ones. -/
theorem claim_C6 (cfg : FiboConfig) (a b c : Fp) (num : Nat) (_hnum : 3 ≤ num) :
    FiboCircuit.synthesize ⟨a, b, c, num⟩ cfg initState =
      .ok { regions := privRegion cfg a b c ::
              (List.range (num - 3)).flatMap (expectedIter cfg a b c),
            table := xorTableCells cfg,
            events := "load_table" :: "load_private" ::
              (List.replicate (num - 3) (["xor", "add"] : List String)).flatten } := by
  have hrun := synLoop_expected cfg a b c (num - 3) 0
      ({ regions := [privRegion cfg a b c], table := xorTableCells cfg,
         events := ["load_table", "load_private"] } : SynState)
      (by simp)
  simp only [termCell, fieldSeq_zero, fieldSeq_one, fieldSeq_two, Nat.zero_add] at hrun
  norm_num at hrun
  simp only [FiboCircuit.synthesize, FiboChip.load_table, FiboChip.load_private,
    initState, privRegion, List.nil_append, List.length_nil, List.cons_append,
    List.singleton_append] at *
  rw [hrun]
  simp [List.range_eq_range']


/-- witness for C6 at seeds `(1, 3, 2)` and length 5 (two iterations). -/
theorem claim_C6_witness :
    FiboCircuit.synthesize ⟨1, 3, 2, 5⟩ cfg0 initState =
      .ok { regions := privRegion cfg0 1 3 2 ::
              (List.range (5 - 3)).flatMap (expectedIter cfg0 1 3 2),
            table := xorTableCells cfg0,
            events := "load_table" :: "load_private" ::
              (List.replicate (5 - 3) (["xor", "add"] : List String)).flatten } :=
  claim_C6 cfg0 1 3 2 5 (by decide)

/-! ## The lookup table (claim C3) -/

/-- closed form of the inner `for rhs` loop over an arbitrary rhs range:
block `j` is written at row `idx + j`. -/
lemma xorTableInner_eq (cfg : FiboConfig) (lhs : Nat) :
    ∀ (k s idx : Nat), xorTableInner cfg lhs idx (List.range' s k) =
      ((List.range k).flatMap fun j =>
        [(cfg.xor_table.1, idx + j, (lhs : Fp)),
         (cfg.xor_table.2.1, idx + j, ((s + j : Nat) : Fp)),
         (cfg.xor_table.2.2, idx + j, ((lhs ^^^ (s + j) : Nat) : Fp))],
       idx + k) := by
  intro k
  induction k with
  | zero =>
    intro s idx
    simp [xorTableInner]
  | succ k ih =>
    intro s idx
    rw [List.range'_succ, xorTableInner, ih (s + 1) (idx + 1), List.range_succ_eq_map]
    have h1 : ∀ j : Nat, idx + 1 + j = idx + (j + 1) := fun j => by omega
    have h2 : ∀ j : Nat, s + 1 + j = s + (j + 1) := fun j => by omega
    simp [List.flatMap_map, h1, h2, Nat.succ_eq_add_one]


/-- the inner loop over the actual range `0..32`. -/
lemma xorTableInner_range32 (cfg : FiboConfig) (lhs idx : Nat) :
    xorTableInner cfg lhs idx (List.range 32) =
      ((List.range 32).flatMap fun j =>
        [(cfg.xor_table.1, idx + j, (lhs : Fp)),
         (cfg.xor_table.2.1, idx + j, (j : Fp)),
         (cfg.xor_table.2.2, idx + j, ((lhs ^^^ j : Nat) : Fp))],
       idx + 32) := by
  conv_lhs => rw [List.range_eq_range' 32]
  rw [xorTableInner_eq cfg lhs 32 0 idx]
  simp [Nat.zero_add]

lemma xorTableOuter_eq (cfg : FiboConfig) :
    ∀ (k s idx : Nat), xorTableOuter cfg idx (List.range' s k) =
      ((List.range k).flatMap fun i =>
        (List.range 32).flatMap fun j =>
          [(cfg.xor_table.1, idx + 32 * i + j, ((s + i : Nat) : Fp)),
           (cfg.xor_table.2.1, idx + 32 * i + j, (j : Fp)),
           (cfg.xor_table.2.2, idx + 32 * i + j, (((s + i) ^^^ j : Nat) : Fp))],
       idx + 32 * k) := by
  intro k
  induction k with
  | zero =>
    intro s idx
    simp [xorTableOuter]
  | succ k ih =>
    intro s idx
    rw [List.range'_succ, xorTableOuter, xorTableInner_range32 cfg s idx]
    simp only []
    rw [ih (s + 1) (idx + 32)]
    simp only []
    have h1 : ∀ i j : Nat, idx + 32 + 32 * i + j = idx + 32 * (i + 1) + j := fun i j => by omega
    have h2 : ∀ i : Nat, s + 1 + i = s + (i + 1) := fun i => by omega
    rw [List.range_succ_eq_map k]
    simp only [Prod.mk.injEq]
    refine ⟨?_, by omega⟩
    simp only [List.flatMap_cons, List.flatMap_map, Nat.succ_eq_add_one, Nat.mul_zero,
      Nat.add_zero, Nat.zero_add, h1, h2]


/-- closed form of the whole table: for each `lhs` then each `rhs` in
`[0,32)`, the three cells `(lhs, rhs, lhs ^^^ rhs)` sit at row
`32*lhs + rhs` — the sequential row index starting at 0. -/
lemma xorTableCells_eq (cfg : FiboConfig) :
    xorTableCells cfg =
      (List.range 32).flatMap fun l =>
        (List.range 32).flatMap fun r =>
          [(cfg.xor_table.1, 32 * l + r, (l : Fp)),
           (cfg.xor_table.2.1, 32 * l + r, (r : Fp)),
           (cfg.xor_table.2.2, 32 * l + r, ((l ^^^ r : Nat) : Fp))] := by
  unfold xorTableCells
  conv_lhs => rw [List.range_eq_range' 32]
  rw [xorTableOuter_eq cfg 32 0 0]
  simp only [Nat.zero_add]

lemma xorTableCells_length (cfg : FiboConfig) :
    (xorTableCells cfg).length = 3 * 1024 := by
  rw [xorTableCells_eq]
  simp [List.length_flatMap, Function.comp_def, List.map_const', List.sum_replicate]

lemma flatMap_range_ite {α : Type} (n v : Nat) (hv : v < n) (g : Nat → List α) :
    ((List.range n).flatMap fun x => if x = v then g x else []) = g v := by
  induction n with
  | zero => omega
  | succ n ih =>
    rw [List.range_succ, List.flatMap_append]
    rcases Nat.lt_or_ge v n with h | h
    · rw [ih h]
      have : ¬(n = v) := by omega
      simp [this]
    · have hv2 : v = n := by omega
      subst hv2
      have hnil : ((List.range v).flatMap fun x => if x = v then g x else []) = [] := by
        rw [List.flatMap_eq_nil_iff]
        intro x hx
        have : x < v := List.mem_range.mp hx
        simp [show ¬(x = v) by omega]
      rw [hnil]
      simp


/-- filtering the table's cell log by row index `32*l + r` leaves exactly
the one `(l, r, l ^^^ r)` row. -/
lemma xorTableCells_filter (cfg : FiboConfig) (l r : Nat) (hl : l < 32) (hr : r < 32) :
    (xorTableCells cfg).filter (fun e => decide (e.2.1 = 32 * l + r)) =
      [(cfg.xor_table.1, 32 * l + r, (l : Fp)),
       (cfg.xor_table.2.1, 32 * l + r, (r : Fp)),
       (cfg.xor_table.2.2, 32 * l + r, ((l ^^^ r : Nat) : Fp))] := by
  rw [xorTableCells_eq, List.filter_flatMap]
  have hinner : ∀ l' : Nat, l' < 32 →
      (List.filter (fun e => decide (e.2.1 = 32 * l + r))
        ((List.range 32).flatMap fun r' =>
          [(cfg.xor_table.1, 32 * l' + r', (l' : Fp)),
           (cfg.xor_table.2.1, 32 * l' + r', (r' : Fp)),
           (cfg.xor_table.2.2, 32 * l' + r', ((l' ^^^ r' : Nat) : Fp))])) =
      if l' = l then
        [(cfg.xor_table.1, 32 * l + r, (l : Fp)),
         (cfg.xor_table.2.1, 32 * l + r, (r : Fp)),
         (cfg.xor_table.2.2, 32 * l + r, ((l ^^^ r : Nat) : Fp))]
      else [] := by
    intro l' hl'
    rw [List.filter_flatMap]
    by_cases hll : l' = l
    · subst hll
      rw [if_pos rfl]
      have h2 : ∀ r' : Nat, r' < 32 →
          (List.filter (fun e => decide (e.2.1 = 32 * l' + r))
            [(cfg.xor_table.1, 32 * l' + r', (l' : Fp)),
             (cfg.xor_table.2.1, 32 * l' + r', (r' : Fp)),
             (cfg.xor_table.2.2, 32 * l' + r', ((l' ^^^ r' : Nat) : Fp))]) =
          if r' = r then
            [(cfg.xor_table.1, 32 * l' + r, (l' : Fp)),
             (cfg.xor_table.2.1, 32 * l' + r, (r : Fp)),
             (cfg.xor_table.2.2, 32 * l' + r, ((l' ^^^ r : Nat) : Fp))]
          else [] := by
        intro r' hr'
        by_cases hrr : r' = r
        · subst hrr
          simp [List.filter]
        · have : ¬(32 * l' + r' = 32 * l' + r) := by omega
          simp [List.filter, this, hrr]
      calc ((List.range 32).flatMap fun r' =>
              List.filter (fun e => decide (e.2.1 = 32 * l' + r))
                [(cfg.xor_table.1, 32 * l' + r', (l' : Fp)),
                 (cfg.xor_table.2.1, 32 * l' + r', (r' : Fp)),
                 (cfg.xor_table.2.2, 32 * l' + r', ((l' ^^^ r' : Nat) : Fp))])
          = (List.range 32).flatMap fun r' =>
              if r' = r then
                [(cfg.xor_table.1, 32 * l' + r, (l' : Fp)),
                 (cfg.xor_table.2.1, 32 * l' + r, (r : Fp)),
                 (cfg.xor_table.2.2, 32 * l' + r, ((l' ^^^ r : Nat) : Fp))]
              else [] := by
            exact List.flatMap_congr fun r' hr' => h2 r' (List.mem_range.mp hr')
        _ = _ := flatMap_range_ite 32 r hr _
    · rw [if_neg hll]
      rw [List.flatMap_eq_nil_iff]
      intro r' hr'
      have hr2 : r' < 32 := List.mem_range.mp hr'
      have : ¬(32 * l' + r' = 32 * l + r) := by
        rcases Nat.lt_or_ge l' l with h | h
        · omega
        · have : l < l' := by omega
          omega
      simp [List.filter, this]
  calc ((List.range 32).flatMap fun l' =>
          List.filter (fun e => decide (e.2.1 = 32 * l + r))
            ((List.range 32).flatMap fun r' =>
              [(cfg.xor_table.1, 32 * l' + r', (l' : Fp)),
               (cfg.xor_table.2.1, 32 * l' + r', (r' : Fp)),
               (cfg.xor_table.2.2, 32 * l' + r', ((l' ^^^ r' : Nat) : Fp))]))
      = (List.range 32).flatMap fun l' =>
          if l' = l then
            [(cfg.xor_table.1, 32 * l + r, (l : Fp)),
             (cfg.xor_table.2.1, 32 * l + r, (r : Fp)),
             (cfg.xor_table.2.2, 32 * l + r, ((l ^^^ r : Nat) : Fp))]
          else [] := List.flatMap_congr fun l' hl' => hinner l' (List.mem_range.mp hl')
    _ = _ := flatMap_range_ite 32 l hl _


/-- C3: the table loader assigns exactly 1024 rows of three cells; for
every pair `(l, r)` in `[0,32)²` the cells at row `32*l + r` are exactly
`(l, r, l XOR r)` in the three table columns (one such row, at the
sequential index), and every assigned cell belongs to such a row. -/
theorem claim_C3 (cfg : FiboConfig) (l r : Nat) (hl : l < 32) (hr : r < 32) :
    (xorTableCells cfg).length = 3 * 1024 ∧
    (xorTableCells cfg).filter (fun e => decide (e.2.1 = 32 * l + r)) =
      [(cfg.xor_table.1, 32 * l + r, (l : Fp)),
       (cfg.xor_table.2.1, 32 * l + r, (r : Fp)),
       (cfg.xor_table.2.2, 32 * l + r, ((l ^^^ r : Nat) : Fp))] ∧
    (∀ e ∈ xorTableCells cfg, ∃ l2 r2 : Nat, l2 < 32 ∧ r2 < 32 ∧
      (e = (cfg.xor_table.1, 32 * l2 + r2, (l2 : Fp)) ∨
       e = (cfg.xor_table.2.1, 32 * l2 + r2, (r2 : Fp)) ∨
       e = (cfg.xor_table.2.2, 32 * l2 + r2, ((l2 ^^^ r2 : Nat) : Fp)))) := by
  refine ⟨xorTableCells_length cfg, xorTableCells_filter cfg l r hl hr, ?_⟩
  intro e he
  rw [xorTableCells_eq] at he
  obtain ⟨l2, hl2, he⟩ := List.mem_flatMap.mp he
  obtain ⟨r2, hr2, he⟩ := List.mem_flatMap.mp he
  refine ⟨l2, r2, List.mem_range.mp hl2, List.mem_range.mp hr2, ?_⟩
  simpa using he

theorem claim_C3_witness :
    (xorTableCells cfg0).length = 3 * 1024 ∧
    (xorTableCells cfg0).filter (fun e => decide (e.2.1 = 32 * 2 + 3)) =
      [(cfg0.xor_table.1, 32 * 2 + 3, ((2 : Nat) : Fp)),
       (cfg0.xor_table.2.1, 32 * 2 + 3, ((3 : Nat) : Fp)),
       (cfg0.xor_table.2.2, 32 * 2 + 3, ((2 ^^^ 3 : Nat) : Fp))] ∧
    (∀ e ∈ xorTableCells cfg0, ∃ l2 r2 : Nat, l2 < 32 ∧ r2 < 32 ∧
      (e = (cfg0.xor_table.1, 32 * l2 + r2, (l2 : Fp)) ∨
       e = (cfg0.xor_table.2.1, 32 * l2 + r2, (r2 : Fp)) ∨
       e = (cfg0.xor_table.2.2, 32 * l2 + r2, ((l2 ^^^ r2 : Nat) : Fp)))) :=
  claim_C3 cfg0 2 3 (by decide) (by decide)


end FiboHalo2
